import Mathlib

/-!
Verification of the TCP port-range matcher of the netfilter subsystem
(`pkg/sentry/socket/netfilter/tcp_matcher.go`).

The embedding models bytes as natural numbers below 256 held in `List Nat`.
Reads that would be out-of-range slice accesses in the source are modelled
as `Option`-valued accessors (`none` corresponds to a runtime panic), so
`TCPMatcher.Match` returns `Option (Bool × Bool)`: `some (matched, hotdrop)`
for a normal return, `none` for an out-of-range access.
-/

namespace Netfilter

/-- Size in bytes of the wire match block `linux.XTTCP`:
four 16-bit ports followed by four single-byte flag fields. -/
def SizeOfXTTCP : Nat := 12

/-- Modelled from the spec: the generic match-header (`linux.XTEntryMatch`,
not in src) carries a fixed-width total-length field (2 bytes) and the
matcher's name (29 bytes, zero padded) plus one alignment byte. -/
def SizeOfXTEntryMatch : Nat := 32

/-- Transport protocol number of TCP (`header.TCPProtocolNumber`). -/
def TCPProtocolNumber : Nat := 6

/-- Minimum size in bytes of an IPv4 header (`header.IPv4MinimumSize`). -/
def IPv4MinimumSize : Nat := 20

/-- Minimum size in bytes of a TCP header (`header.TCPMinimumSize`). -/
def TCPMinimumSize : Nat := 20

/-- Little-endian encoding of a 16-bit value as two bytes. -/
def u16LE (x : Nat) : List Nat := [x % 256, x / 256 % 256]

/-- Little-endian decoding of a 16-bit value at offset `i`; offsets are
in range whenever the caller has checked the buffer length, so a default
of 0 is only a formal artifact. -/
def readU16LE (l : List Nat) (i : Nat) : Nat :=
  l.getD i 0 + 256 * l.getD (i + 1) 0

/-- Big-endian decoding of a 16-bit value at offset `i`, `none` when an
index is out of range (a panic in the source). -/
def readU16BE (l : List Nat) (i : Nat) : Option Nat := do
  let hi ← l[i]?
  let lo ← l[i + 1]?
  pure (256 * hi + lo)

/-- Wire match block `linux.XTTCP`: the external binary layout of one TCP
matcher's configuration. -/
structure XTTCP where
  SourcePortStart : Nat
  SourcePortEnd : Nat
  DestinationPortStart : Nat
  DestinationPortEnd : Nat
  Option : Nat
  FlagMask : Nat
  FlagCompare : Nat
  InverseFlags : Nat
deriving DecidableEq, Repr

/-- Little-endian encoding of an `XTTCP` (`binary.Marshal` with the
external ABI's field order: four 16-bit ports, then four bytes). -/
def binaryMarshalXTTCP (x : XTTCP) : List Nat :=
  u16LE x.SourcePortStart ++ u16LE x.SourcePortEnd ++
  u16LE x.DestinationPortStart ++ u16LE x.DestinationPortEnd ++
  [x.Option % 256, x.FlagMask % 256, x.FlagCompare % 256, x.InverseFlags % 256]

/-- Little-endian decoding of an `XTTCP` from the first `SizeOfXTTCP`
bytes of `buf` (`binary.Unmarshal`); the caller checks the length first. -/
def binaryUnmarshalXTTCP (buf : List Nat) : XTTCP :=
  { SourcePortStart := readU16LE buf 0
    SourcePortEnd := readU16LE buf 2
    DestinationPortStart := readU16LE buf 4
    DestinationPortEnd := readU16LE buf 6
    Option := buf.getD 8 0
    FlagMask := buf.getD 9 0
    FlagCompare := buf.getD 10 0
    InverseFlags := buf.getD 11 0 }

/-- The TCP matcher instance: four 16-bit port-range bounds. -/
structure TCPMatcher where
  sourcePortStart : Nat
  sourcePortEnd : Nat
  destinationPortStart : Nat
  destinationPortEnd : Nat
deriving DecidableEq, Repr

/-- The enclosing rule's IP header filter, used only for its declared
network-layer protocol. -/
structure IPHeaderFilter where
  Protocol : Nat
deriving DecidableEq, Repr

/-- Round `n` up to the next multiple of `m` (`binary.AlignUp`). -/
def alignUp (n m : Nat) : Nat := (n + m - 1) / m * m

/-- Byte encoding of the matcher name string used on the wire. -/
def matcherNameTCPBytes : List Nat := [116, 99, 112]

/-- Modelled from the spec: `marshalEntryMatch` (not in src) produces a
generic match-header carrying the matcher's name and total length,
followed by the wire match block, followed by padding to reach the ABI's
8-byte-aligned total size. -/
def marshalEntryMatch (nameBytes data : List Nat) : List Nat :=
  let size := alignUp (SizeOfXTEntryMatch + data.length) 8
  u16LE size ++ (nameBytes ++ List.replicate (29 - nameBytes.length) 0) ++ [0] ++
    data ++ List.replicate (size - (SizeOfXTEntryMatch + data.length)) 0

/-- The `tcpMarshaler.marshal` function: encode the instance's four port
bounds (all unsupported flag fields zero) and wrap the result in the
generic match-header. -/
def tcpMarshal (m : TCPMatcher) : List Nat :=
  marshalEntryMatch matcherNameTCPBytes (binaryMarshalXTTCP
    { SourcePortStart := m.sourcePortStart
      SourcePortEnd := m.sourcePortEnd
      DestinationPortStart := m.destinationPortStart
      DestinationPortEnd := m.destinationPortEnd
      Option := 0
      FlagMask := 0
      FlagCompare := 0
      InverseFlags := 0 })

/-- Modelled from the spec: the rule-table codec (not in src) slices the
match block out of a rule buffer by dropping the generic match-header
that precedes it; `unmarshal` receives what follows the header. -/
def matchDataOf (xs : List Nat) : List Nat := xs.drop SizeOfXTEntryMatch

/-- The three rejection kinds of `tcpMarshaler.unmarshal`. -/
inductive UnmarshalError where
  | sizeError
  | flagsError
  | protocolError
deriving DecidableEq, Repr

/-- The `tcpMarshaler.unmarshal` function: reject a short buffer, decode
the logical-size prefix, reject non-zero unsupported flag fields, reject
a filter whose protocol is not TCP, and otherwise build the instance. -/
def tcpUnmarshal (buf : List Nat) (filter : IPHeaderFilter) :
    Except UnmarshalError TCPMatcher :=
  if buf.length < SizeOfXTTCP then
    .error .sizeError
  else
    let matchData := binaryUnmarshalXTTCP (buf.take SizeOfXTTCP)
    if matchData.Option ≠ 0 ∨ matchData.FlagMask ≠ 0 ∨
        matchData.FlagCompare ≠ 0 ∨ matchData.InverseFlags ≠ 0 then
      .error .flagsError
    else if filter.Protocol ≠ TCPProtocolNumber then
      .error .protocolError
    else
      .ok { sourcePortStart := matchData.SourcePortStart
            sourcePortEnd := matchData.SourcePortEnd
            destinationPortStart := matchData.DestinationPortStart
            destinationPortEnd := matchData.DestinationPortEnd }

/-- The five interception hooks (`stack.Hook`). -/
inductive Hook where
  | Prerouting
  | Input
  | Forward
  | Output
  | Postrouting
deriving DecidableEq, Repr

/-- The packet view passed to `Match` (`stack.PacketBuffer`): the
possibly-absent (empty) already-parsed network header, the
possibly-unparsed transport header, and the raw data that `PullUp`
draws from. -/
structure PacketBuffer where
  NetworkHeader : List Nat
  TransportHeader : Option (List Nat)
  Data : List Nat
deriving DecidableEq, Repr

/-- The packet view's `PullUp`: make the first `n` contiguous bytes of
the data available, or report absence when fewer bytes were captured. -/
def pullUp (data : List Nat) (n : Nat) : Option (List Nat) :=
  if n ≤ data.length then some (data.take n) else none

/-- Modelled from the spec: `header.IPv4.TransportProtocol` (not in src)
reads the declared transport protocol of the parsed network header, the
protocol byte at offset 9 of the IPv4 header; `none` is the panic on an
absent or too-short header. -/
def IPv4.TransportProtocol (b : List Nat) : Option Nat := b[9]?

/-- Modelled from the spec: the packet view's fragment-offset accessor
(`header.IPv4.FragmentOffset`, not in src) returns an integer, 0 for an
unfragmented or first-fragment packet and nonzero for a continuation
fragment, extracted as the 13-bit fragment-offset field of the
flags/fragment-offset word at bytes 6 and 7 of the IPv4 header; `none`
is the panic on a too-short header. -/
def IPv4.FragmentOffset (b : List Nat) : Option Nat :=
  (readU16BE b 6).map (fun raw => raw % 8192)

/-- Modelled from the spec: `header.IPv4.HeaderLength` (not in src)
reads the network header's length in bytes, four times the IHL nibble
of byte 0; `none` is the panic on an empty header. -/
def IPv4.HeaderLength (b : List Nat) : Option Nat :=
  (b[0]?).map (fun v => v % 16 * 4)

/-- Modelled from the spec: `header.TCP.SourcePort` (not in src) reads
the big-endian source port at offset 0 of the transport header; `none`
is the panic on a too-short header. -/
def TCP.SourcePort (b : List Nat) : Option Nat := readU16BE b 0

/-- Modelled from the spec: `header.TCP.DestinationPort` (not in src)
reads the big-endian destination port at offset 2 of the transport
header; `none` is the panic on a too-short header. -/
def TCP.DestinationPort (b : List Nat) : Option Nat := readU16BE b 2

/-- The port-range comparison at the end of `TCPMatcher.Match`: the
source port is checked first and the destination port is only read when
the source check passes, as in the source. -/
def TCPMatcher.portCheck (tm : TCPMatcher) (tcpHeader : List Nat) :
    Option (Bool × Bool) := do
  let sourcePort ← TCP.SourcePort tcpHeader
  if sourcePort < tm.sourcePortStart ∨ tm.sourcePortEnd < sourcePort then
    pure (false, false)
  else do
    let destinationPort ← TCP.DestinationPort tcpHeader
    if destinationPort < tm.destinationPortStart ∨
        tm.destinationPortEnd < destinationPort then
      pure (false, false)
    else
      pure (true, false)

/-- The `TCPMatcher.Match` function: protocol check, fragment check,
then port extraction from the already-parsed transport header or from a
lazy hook-dependent pull-up of the packet data. The non-Prerouting arm
is the source's common tail with `length = 0`. -/
def TCPMatcher.Match (tm : TCPMatcher) (hook : Hook) (pkt : PacketBuffer) :
    Option (Bool × Bool) := do
  let proto ← IPv4.TransportProtocol pkt.NetworkHeader
  if proto ≠ TCPProtocolNumber then
    pure (false, false)
  else do
    let frag ← IPv4.FragmentOffset pkt.NetworkHeader
    if frag ≠ 0 then
      if frag = 1 then pure (false, true) else pure (false, false)
    else
      match pkt.TransportHeader with
      | some th => tm.portCheck th
      | none =>
        match hook with
        | Hook.Prerouting =>
          match pullUp pkt.Data IPv4MinimumSize with
          | none => pure (false, true)
          | some hdr => do
            let length ← IPv4.HeaderLength hdr
            match pullUp pkt.Data (length + TCPMinimumSize) with
            | none => pure (false, true)
            | some hdr2 => tm.portCheck (hdr2.drop length)
        | _ =>
          match pullUp pkt.Data (0 + TCPMinimumSize) with
          | none => pure (false, true)
          | some hdr2 => tm.portCheck (hdr2.drop 0)

/-- Characterization of the final port-range comparison: when both ports
are readable the result is the conjunction of the two inclusive range
checks, never a hotdrop. -/
theorem TCPMatcher.portCheck_eq (tm : TCPMatcher) (th : List Nat) (sp dp : Nat)
    (hs : TCP.SourcePort th = some sp) (hd : TCP.DestinationPort th = some dp) :
    tm.portCheck th =
      some (decide (tm.sourcePortStart ≤ sp ∧ sp ≤ tm.sourcePortEnd ∧
        tm.destinationPortStart ≤ dp ∧ dp ≤ tm.destinationPortEnd), false) := by
  unfold TCPMatcher.portCheck
  rw [hs]
  by_cases h1 : sp < tm.sourcePortStart ∨ tm.sourcePortEnd < sp
  · have hP : ¬(tm.sourcePortStart ≤ sp ∧ sp ≤ tm.sourcePortEnd ∧
        tm.destinationPortStart ≤ dp ∧ dp ≤ tm.destinationPortEnd) := by omega
    simp [h1, hP]
  · by_cases h2 : dp < tm.destinationPortStart ∨ tm.destinationPortEnd < dp
    · have hP : ¬(tm.sourcePortStart ≤ sp ∧ sp ≤ tm.sourcePortEnd ∧
          tm.destinationPortStart ≤ dp ∧ dp ≤ tm.destinationPortEnd) := by omega
      simp [h1, h2, hd, hP]
    · have hP : tm.sourcePortStart ≤ sp ∧ sp ≤ tm.sourcePortEnd ∧
          tm.destinationPortStart ≤ dp ∧ dp ≤ tm.destinationPortEnd := by omega
      simp [h1, h2, hd, hP]

/-- C1: for every TCP matcher and every unfragmented TCP packet whose
transport header is available, `Match` returns `matched = true` exactly
when the source port lies in the closed range `[sourcePortStart,
sourcePortEnd]` and the destination port lies in the closed range
`[destinationPortStart, destinationPortEnd]`, with `hotdrop = false` in
either case; both comparisons are inclusive on both ends, so an inverted
range (`start > end`) matches no port. -/
theorem Match_unfragmented_port_ranges (tm : TCPMatcher) (hook : Hook)
    (pkt : PacketBuffer) (th : List Nat) (sp dp : Nat)
    (hproto : IPv4.TransportProtocol pkt.NetworkHeader = some TCPProtocolNumber)
    (hfrag : IPv4.FragmentOffset pkt.NetworkHeader = some 0)
    (hth : pkt.TransportHeader = some th)
    (hs : TCP.SourcePort th = some sp)
    (hd : TCP.DestinationPort th = some dp) :
    tm.Match hook pkt =
      some (decide (tm.sourcePortStart ≤ sp ∧ sp ≤ tm.sourcePortEnd ∧
        tm.destinationPortStart ≤ dp ∧ dp ≤ tm.destinationPortEnd), false) ∧
    ((tm.sourcePortEnd < tm.sourcePortStart ∨
        tm.destinationPortEnd < tm.destinationPortStart) →
      tm.Match hook pkt = some (false, false)) := by
  have hmain : tm.Match hook pkt = tm.portCheck th := by
    unfold TCPMatcher.Match
    rw [hproto, hfrag, hth]
    simp
  rw [hmain, tm.portCheck_eq th sp dp hs hd]
  refine ⟨rfl, fun hinv => ?_⟩
  have hP : ¬(tm.sourcePortStart ≤ sp ∧ sp ≤ tm.sourcePortEnd ∧
      tm.destinationPortStart ≤ dp ∧ dp ≤ tm.destinationPortEnd) := by omega
  simp [hP]

/-- C1 witness: a concrete unfragmented TCP packet with source port 1500
and destination port 80 against ranges `[1000, 2000]` and `[80, 80]`
yields a match with no hotdrop. -/
theorem Match_unfragmented_port_ranges_witness :
    TCPMatcher.Match ⟨1000, 2000, 80, 80⟩ Hook.Input
      ⟨[69, 0, 0, 40, 0, 0, 0, 0, 64, 6, 0, 0, 10, 0, 0, 1, 10, 0, 0, 2],
       some [5, 220, 0, 80, 0, 0, 0, 0, 0, 0, 0, 0, 0, 0, 0, 0, 0, 0, 0, 0],
       []⟩ = some (true, false) := by
  have h := Match_unfragmented_port_ranges ⟨1000, 2000, 80, 80⟩ Hook.Input
    ⟨[69, 0, 0, 40, 0, 0, 0, 0, 64, 6, 0, 0, 10, 0, 0, 1, 10, 0, 0, 2],
     some [5, 220, 0, 80, 0, 0, 0, 0, 0, 0, 0, 0, 0, 0, 0, 0, 0, 0, 0, 0],
     []⟩ [5, 220, 0, 80, 0, 0, 0, 0, 0, 0, 0, 0, 0, 0, 0, 0, 0, 0, 0, 0]
    1500 80 (by decide) (by decide) (by decide) (by decide) (by decide)
  rw [h.1]
  decide

/-- C3: a packet whose network header reports a nonzero fragment offset
is never matched: an offset greater than 1 yields (no-match, no-hotdrop)
and the minimal ambiguous marker value 1 yields (no-match, hotdrop); in
neither case does the result depend on the configured port ranges. -/
theorem Match_fragment (tm : TCPMatcher) (hook : Hook) (pkt : PacketBuffer)
    (f : Nat)
    (hproto : IPv4.TransportProtocol pkt.NetworkHeader = some TCPProtocolNumber)
    (hfrag : IPv4.FragmentOffset pkt.NetworkHeader = some f)
    (hne : f ≠ 0) :
    (1 < f → tm.Match hook pkt = some (false, false)) ∧
    (f = 1 → tm.Match hook pkt = some (false, true)) ∧
    (∀ tm2 : TCPMatcher, tm2.Match hook pkt = tm.Match hook pkt) := by
  have key : ∀ tmx : TCPMatcher, tmx.Match hook pkt =
      some (false, decide (f = 1)) := by
    intro tmx
    unfold TCPMatcher.Match
    rw [hproto, hfrag]
    by_cases h1 : f = 1
    · simp [h1, hne]
    · simp [h1, hne]
  refine ⟨fun hgt => ?_, fun heq => ?_, fun tm2 => by rw [key tm2, key tm]⟩
  · rw [key tm]
    have : f ≠ 1 := by omega
    simp [this]
  · rw [key tm]
    simp [heq]

/-- C3 witness: a concrete TCP packet with fragment offset 2 yields
(no-match, no-hotdrop) and one with the marker offset 1 yields
(no-match, hotdrop). -/
theorem Match_fragment_witness :
    TCPMatcher.Match ⟨1000, 2000, 80, 80⟩ Hook.Input
      ⟨[69, 0, 0, 40, 0, 0, 0, 2, 64, 6, 0, 0, 10, 0, 0, 1, 10, 0, 0, 2],
       none, []⟩ = some (false, false) ∧
    TCPMatcher.Match ⟨1000, 2000, 80, 80⟩ Hook.Input
      ⟨[69, 0, 0, 40, 0, 0, 0, 1, 64, 6, 0, 0, 10, 0, 0, 1, 10, 0, 0, 2],
       none, []⟩ = some (false, true) := by
  constructor
  · exact (Match_fragment ⟨1000, 2000, 80, 80⟩ Hook.Input
      ⟨[69, 0, 0, 40, 0, 0, 0, 2, 64, 6, 0, 0, 10, 0, 0, 1, 10, 0, 0, 2],
       none, []⟩ 2 (by decide) (by decide) (by decide)).1 (by decide)
  · exact (Match_fragment ⟨1000, 2000, 80, 80⟩ Hook.Input
      ⟨[69, 0, 0, 40, 0, 0, 0, 1, 64, 6, 0, 0, 10, 0, 0, 1, 10, 0, 0, 2],
       none, []⟩ 1 (by decide) (by decide) (by decide)).2.1 rfl

/-- C4: for an unfragmented TCP packet whose transport header has not
been parsed, a failing pull-up of the required header region makes
`Match` return (no-match, hotdrop): at every hook when the captured data
is shorter than the transport-header size, and at the pre-routing hook
also when the data is shorter than the parsed network-header length plus
the transport-header size. -/
theorem Match_pullUp_absent (tm : TCPMatcher) (hook : Hook)
    (pkt : PacketBuffer)
    (hproto : IPv4.TransportProtocol pkt.NetworkHeader = some TCPProtocolNumber)
    (hfrag : IPv4.FragmentOffset pkt.NetworkHeader = some 0)
    (hth : pkt.TransportHeader = none) :
    (pkt.Data.length < TCPMinimumSize →
      tm.Match hook pkt = some (false, true)) ∧
    (∀ L, hook = Hook.Prerouting → IPv4MinimumSize ≤ pkt.Data.length →
      IPv4.HeaderLength (pkt.Data.take IPv4MinimumSize) = some L →
      pkt.Data.length < L + TCPMinimumSize →
      tm.Match hook pkt = some (false, true)) := by
  constructor
  · intro hlen
    have h20 : pkt.Data.length < 20 := by
      simpa [TCPMinimumSize] using hlen
    have hpu1 : pullUp pkt.Data IPv4MinimumSize = none := by
      unfold pullUp
      rw [if_neg (by simp only [IPv4MinimumSize]; omega)]
    have hpu2 : pullUp pkt.Data TCPMinimumSize = none := by
      unfold pullUp
      rw [if_neg (by simp only [TCPMinimumSize]; omega)]
    unfold TCPMatcher.Match
    rw [hproto, hfrag, hth]
    cases hook <;> simp [hpu1, hpu2]
  · intro L hhook hge hL hlt
    subst hhook
    have hpu1 : pullUp pkt.Data IPv4MinimumSize =
        some (pkt.Data.take IPv4MinimumSize) := by
      unfold pullUp
      rw [if_pos hge]
    have hpu2 : pullUp pkt.Data (L + TCPMinimumSize) = none := by
      unfold pullUp
      rw [if_neg (by omega)]
    unfold TCPMatcher.Match
    rw [hproto, hfrag, hth]
    simp [hpu1, hL, hpu2]

/-- C4 witness: an unfragmented TCP packet with only one byte of
captured data and no parsed transport header is hotdropped at the Input
hook. -/
theorem Match_pullUp_absent_witness :
    TCPMatcher.Match ⟨1000, 2000, 80, 80⟩ Hook.Input
      ⟨[69, 0, 0, 40, 0, 0, 0, 0, 64, 6, 0, 0, 10, 0, 0, 1, 10, 0, 0, 2],
       none, [5]⟩ = some (false, true) :=
  (Match_pullUp_absent ⟨1000, 2000, 80, 80⟩ Hook.Input
    ⟨[69, 0, 0, 40, 0, 0, 0, 0, 64, 6, 0, 0, 10, 0, 0, 1, 10, 0, 0, 2],
     none, [5]⟩ (by decide) (by decide) rfl).1 (by decide)

/-- C5: `Match` takes the transport header from an already-parsed header
directly when one is present; otherwise at the pre-routing hook it pulls
up the network header, reads its header length `L`, and takes the
transport header from the `TCPMinimumSize` bytes immediately following
offset `L` of the packet data, while at every other hook it takes the
transport header from offset zero of the packet data, pulling up only
the transport-header-sized region. -/
theorem Match_lazy_hook_parsing (tm : TCPMatcher) (hook : Hook)
    (pkt : PacketBuffer)
    (hproto : IPv4.TransportProtocol pkt.NetworkHeader = some TCPProtocolNumber)
    (hfrag : IPv4.FragmentOffset pkt.NetworkHeader = some 0) :
    (∀ th, pkt.TransportHeader = some th →
      tm.Match hook pkt = tm.portCheck th) ∧
    (∀ L, pkt.TransportHeader = none → hook = Hook.Prerouting →
      IPv4MinimumSize ≤ pkt.Data.length →
      IPv4.HeaderLength (pkt.Data.take IPv4MinimumSize) = some L →
      L + TCPMinimumSize ≤ pkt.Data.length →
      tm.Match hook pkt = tm.portCheck ((pkt.Data.drop L).take TCPMinimumSize)) ∧
    (pkt.TransportHeader = none → hook ≠ Hook.Prerouting →
      TCPMinimumSize ≤ pkt.Data.length →
      tm.Match hook pkt = tm.portCheck (pkt.Data.take TCPMinimumSize)) := by
  refine ⟨fun th hth => ?_, fun L hth hhook hge hL hge2 => ?_, fun hth hne hge => ?_⟩
  · unfold TCPMatcher.Match
    rw [hproto, hfrag, hth]
    simp
  · subst hhook
    have hpu1 : pullUp pkt.Data IPv4MinimumSize =
        some (pkt.Data.take IPv4MinimumSize) := by
      unfold pullUp
      rw [if_pos hge]
    have hpu2 : pullUp pkt.Data (L + TCPMinimumSize) =
        some (pkt.Data.take (L + TCPMinimumSize)) := by
      unfold pullUp
      rw [if_pos hge2]
    unfold TCPMatcher.Match
    rw [hproto, hfrag, hth]
    simp [hpu1, hL, hpu2, List.drop_take, Nat.add_sub_cancel_left]
  · have hpu : pullUp pkt.Data TCPMinimumSize =
        some (pkt.Data.take TCPMinimumSize) := by
      unfold pullUp
      rw [if_pos hge]
    unfold TCPMatcher.Match
    rw [hproto, hfrag, hth]
    cases hook with
    | Prerouting => exact absurd rfl hne
    | Input => simp [hpu]
    | Forward => simp [hpu]
    | Output => simp [hpu]
    | Postrouting => simp [hpu]

/-- C5 witness: at the pre-routing hook with no parsed transport header,
the match result on a concrete packet equals the port check applied to
the 20 data bytes immediately following the parsed 20-byte network
header, and at the Input hook it equals the port check applied to the
first 20 data bytes. -/
theorem Match_lazy_hook_parsing_witness :
    TCPMatcher.Match ⟨1000, 2000, 80, 80⟩ Hook.Prerouting
      ⟨[69, 0, 0, 40, 0, 0, 0, 0, 64, 6, 0, 0, 10, 0, 0, 1, 10, 0, 0, 2],
       none,
       [69, 0, 0, 40, 0, 0, 0, 0, 64, 6, 0, 0, 10, 0, 0, 1, 10, 0, 0, 2,
        5, 220, 0, 80, 0, 0, 0, 0, 0, 0, 0, 0, 0, 0, 0, 0, 0, 0, 0, 0]⟩ =
      TCPMatcher.portCheck ⟨1000, 2000, 80, 80⟩
        ((List.drop 20
          [69, 0, 0, 40, 0, 0, 0, 0, 64, 6, 0, 0, 10, 0, 0, 1, 10, 0, 0, 2,
           5, 220, 0, 80, 0, 0, 0, 0, 0, 0, 0, 0, 0, 0, 0, 0, 0, 0, 0, 0]).take
          TCPMinimumSize) :=
  (Match_lazy_hook_parsing ⟨1000, 2000, 80, 80⟩ Hook.Prerouting
    ⟨[69, 0, 0, 40, 0, 0, 0, 0, 64, 6, 0, 0, 10, 0, 0, 1, 10, 0, 0, 2],
     none,
     [69, 0, 0, 40, 0, 0, 0, 0, 64, 6, 0, 0, 10, 0, 0, 1, 10, 0, 0, 2,
      5, 220, 0, 80, 0, 0, 0, 0, 0, 0, 0, 0, 0, 0, 0, 0, 0, 0, 0, 0]⟩
    (by decide) (by decide)).2.1 20 rfl rfl (by decide) (by decide) (by decide)

/-- Case analysis on the port check's return value: it returns either a
definite no-match or a definite match, never a hotdrop. -/
theorem TCPMatcher.portCheck_cases (tm : TCPMatcher) (th : List Nat)
    (r : Bool × Bool) (h : tm.portCheck th = some r) :
    r = (false, false) ∨ r = (true, false) := by
  unfold TCPMatcher.portCheck at h
  cases hsp : TCP.SourcePort th with
  | none => rw [hsp] at h; simp at h
  | some sp =>
    rw [hsp] at h
    simp only [Option.bind_eq_bind, Option.some_bind] at h
    split at h
    · simp only [pure, Option.some.injEq] at h
      exact Or.inl h.symm
    · cases hdp : TCP.DestinationPort th with
      | none => rw [hdp] at h; simp at h
      | some dp =>
        rw [hdp] at h
        simp only [Option.bind_eq_bind, Option.some_bind] at h
        split at h
        · simp only [pure, Option.some.injEq] at h
          exact Or.inl h.symm
        · simp only [pure, Option.some.injEq] at h
          exact Or.inr h.symm

/-- C10: `Match` never reports a match and a hotdrop together: every
returned pair is (false, false), (false, true) or (true, false). -/
theorem Match_never_matched_and_hotdrop (tm : TCPMatcher) (hook : Hook)
    (pkt : PacketBuffer) (r : Bool × Bool)
    (h : tm.Match hook pkt = some r) :
    r = (false, false) ∨ r = (false, true) ∨ r = (true, false) := by
  unfold TCPMatcher.Match at h
  cases hp : IPv4.TransportProtocol pkt.NetworkHeader with
  | none => rw [hp] at h; simp at h
  | some proto =>
    rw [hp] at h
    simp only [Option.bind_eq_bind, Option.some_bind] at h
    split at h
    · simp only [pure, Option.some.injEq] at h
      exact Or.inl h.symm
    · cases hf : IPv4.FragmentOffset pkt.NetworkHeader with
      | none => rw [hf] at h; simp at h
      | some f =>
        rw [hf] at h
        simp only [Option.bind_eq_bind, Option.some_bind] at h
        split at h
        · split at h <;> simp only [pure, Option.some.injEq] at h
          · exact Or.inr (Or.inl h.symm)
          · exact Or.inl h.symm
        · split at h
          · rcases tm.portCheck_cases _ r h with h1 | h1
            · exact Or.inl h1
            · exact Or.inr (Or.inr h1)
          · split at h
            · split at h
              · simp only [pure, Option.some.injEq] at h
                exact Or.inr (Or.inl h.symm)
              · cases hl : IPv4.HeaderLength _ with
                | none => rw [hl] at h; simp at h
                | some L =>
                  rw [hl] at h
                  simp only [Option.bind_eq_bind, Option.some_bind] at h
                  split at h
                  · simp only [pure, Option.some.injEq] at h
                    exact Or.inr (Or.inl h.symm)
                  · rcases tm.portCheck_cases _ r h with h1 | h1
                    · exact Or.inl h1
                    · exact Or.inr (Or.inr h1)
            · split at h
              · simp only [pure, Option.some.injEq] at h
                exact Or.inr (Or.inl h.symm)
              · rcases tm.portCheck_cases _ r h with h1 | h1
                · exact Or.inl h1
                · exact Or.inr (Or.inr h1)

/-- C10 witness: a concrete matching packet returns (true, false), which
is one of the three permitted pairs. -/
theorem Match_never_matched_and_hotdrop_witness :
    ((true, false) : Bool × Bool) = (false, false) ∨
    ((true, false) : Bool × Bool) = (false, true) ∨
    ((true, false) : Bool × Bool) = (true, false) :=
  Match_never_matched_and_hotdrop ⟨1000, 2000, 80, 80⟩ Hook.Input
    ⟨[69, 0, 0, 40, 0, 0, 0, 0, 64, 6, 0, 0, 10, 0, 0, 1, 10, 0, 0, 2],
     some [5, 220, 0, 80, 0, 0, 0, 0, 0, 0, 0, 0, 0, 0, 0, 0, 0, 0, 0, 0],
     []⟩ (true, false) (by decide)

/-- The port check returns a value whenever the transport header holds
the four bytes of the two ports. -/
theorem TCPMatcher.portCheck_isSome (tm : TCPMatcher) (th : List Nat)
    (h : 4 ≤ th.length) : (tm.portCheck th).isSome = true := by
  match th, h with
  | a :: b :: c :: d :: t, _ =>
    rw [tm.portCheck_eq (a :: b :: c :: d :: t) (256 * a + b) (256 * c + d)
      (by simp [TCP.SourcePort, readU16BE]) (by simp [TCP.DestinationPort, readU16BE])]
    rfl

/-- C9 counterexample: at the pre-routing hook on a packet view whose
network-header field is absent (empty), the very first inspection of the
transport-protocol field is an out-of-range access, so `Match` does not
return a pair. -/
theorem Match_absent_network_header_panics :
    TCPMatcher.Match ⟨1000, 2000, 80, 80⟩ Hook.Prerouting
      ⟨[], none,
       [69, 0, 0, 40, 0, 0, 0, 0, 64, 6, 0, 0, 10, 0, 0, 1, 10, 0, 0, 2,
        5, 220, 0, 80, 0, 0, 0, 0, 0, 0, 0, 0, 0, 0, 0, 0, 0, 0, 0, 0]⟩ =
      none := by decide

/-- C9 amended: `Match` returns a (matched, hotdrop) pair without any
out-of-range access at every hook, every interface name and every
packet view, provided the packet view's network header is present with
at least the 10 bytes covering the transport-protocol and
fragment-offset fields and any already-parsed transport header holds at
least the 4 port bytes; the lazy pre-routing parsing path itself never
reads out of range. -/
theorem Match_total_with_network_header (tm : TCPMatcher) (hook : Hook)
    (pkt : PacketBuffer)
    (hnet : 10 ≤ pkt.NetworkHeader.length)
    (hth : ∀ th, pkt.TransportHeader = some th → 4 ≤ th.length) :
    (tm.Match hook pkt).isSome = true := by
  obtain ⟨proto, hp⟩ : ∃ p, IPv4.TransportProtocol pkt.NetworkHeader = some p :=
    ⟨_, List.getElem?_eq_getElem (by omega)⟩
  obtain ⟨v6, h6⟩ : ∃ v, pkt.NetworkHeader[6]? = some v :=
    ⟨_, List.getElem?_eq_getElem (by omega)⟩
  obtain ⟨v7, h7⟩ : ∃ v, pkt.NetworkHeader[7]? = some v :=
    ⟨_, List.getElem?_eq_getElem (by omega)⟩
  have hf : IPv4.FragmentOffset pkt.NetworkHeader =
      some ((256 * v6 + v7) % 8192) := by
    simp [IPv4.FragmentOffset, readU16BE, h6, h7]
  unfold TCPMatcher.Match
  rw [hp]
  simp only [Option.bind_eq_bind, Option.some_bind]
  by_cases hproto : proto ≠ TCPProtocolNumber
  · simp [hproto]
  · rw [if_neg hproto, hf]
    simp only [Option.bind_eq_bind, Option.some_bind]
    by_cases hfz : (256 * v6 + v7) % 8192 ≠ 0
    · by_cases hf1 : (256 * v6 + v7) % 8192 = 1 <;> simp [hfz, hf1]
    · rw [if_neg hfz]
      cases hthp : pkt.TransportHeader with
      | some th => exact tm.portCheck_isSome th (hth th hthp)
      | none =>
        have main : ∀ n : Nat,
            (match pullUp pkt.Data (n + TCPMinimumSize) with
              | none => (pure (false, true) : Option (Bool × Bool))
              | some hdr2 => tm.portCheck (hdr2.drop n)).isSome = true := by
          intro n
          by_cases hge : n + TCPMinimumSize ≤ pkt.Data.length
          · have hpu : pullUp pkt.Data (n + TCPMinimumSize) =
                some (pkt.Data.take (n + TCPMinimumSize)) := by
              unfold pullUp
              rw [if_pos hge]
            rw [hpu]
            refine tm.portCheck_isSome _ ?_
            simp only [List.length_drop, List.length_take, TCPMinimumSize]
            simp only [TCPMinimumSize] at hge
            omega
          · have hpu : pullUp pkt.Data (n + TCPMinimumSize) = none := by
              unfold pullUp
              rw [if_neg hge]
            rw [hpu]
            rfl
        cases hook with
        | Prerouting =>
          by_cases hge : IPv4MinimumSize ≤ pkt.Data.length
          · have hpu1 : pullUp pkt.Data IPv4MinimumSize =
                some (pkt.Data.take IPv4MinimumSize) := by
              unfold pullUp
              rw [if_pos hge]
            obtain ⟨b0, hb0⟩ :
                ∃ v, (pkt.Data.take IPv4MinimumSize)[0]? = some v := by
              refine ⟨_, List.getElem?_eq_getElem ?_⟩
              simp only [List.length_take, IPv4MinimumSize]
              simp only [IPv4MinimumSize] at hge
              omega
            have hL : IPv4.HeaderLength (pkt.Data.take IPv4MinimumSize) =
                some (b0 % 16 * 4) := by
              simp [IPv4.HeaderLength, hb0]
            simp only [hpu1, hL, Option.bind_eq_bind, Option.some_bind]
            exact main (b0 % 16 * 4)
          · have hpu1 : pullUp pkt.Data IPv4MinimumSize = none := by
              unfold pullUp
              rw [if_neg hge]
            rw [hpu1]
            rfl
        | Input => simpa using main 0
        | Forward => simpa using main 0
        | Output => simpa using main 0
        | Postrouting => simpa using main 0

/-- C9 amended witness: a concrete pre-routing packet with an unparsed
transport header and a present 20-byte network header gets a returned
pair. -/
theorem Match_total_with_network_header_witness :
    (TCPMatcher.Match ⟨1000, 2000, 80, 80⟩ Hook.Prerouting
      ⟨[69, 0, 0, 40, 0, 0, 0, 0, 64, 6, 0, 0, 10, 0, 0, 1, 10, 0, 0, 2],
       none, [1]⟩).isSome = true :=
  Match_total_with_network_header ⟨1000, 2000, 80, 80⟩ Hook.Prerouting
    ⟨[69, 0, 0, 40, 0, 0, 0, 0, 64, 6, 0, 0, 10, 0, 0, 1, 10, 0, 0, 2],
     none, [1]⟩ (by decide) (by intro th h; cases h)

/-- Reading inside the truncated prefix is reading the original list. -/
theorem getD_take (buf : List Nat) (n i : Nat) (h : i < n) :
    (buf.take n).getD i 0 = buf.getD i 0 := by
  simp [List.getD_eq_getElem?_getD, List.getElem?_take, h]

/-- The decode step only looks at the logical-size prefix, so the
explicit truncation in `unmarshal` is invisible to the decoded fields. -/
theorem binaryUnmarshalXTTCP_take (buf : List Nat) :
    binaryUnmarshalXTTCP (buf.take SizeOfXTTCP) = binaryUnmarshalXTTCP buf := by
  unfold binaryUnmarshalXTTCP readU16LE SizeOfXTTCP
  simp [getD_take]

/-- Unfolding of `tcpUnmarshal` with the prefix truncation removed. -/
theorem tcpUnmarshal_eq (buf : List Nat) (filter : IPHeaderFilter) :
    tcpUnmarshal buf filter =
      if buf.length < SizeOfXTTCP then .error .sizeError
      else if (binaryUnmarshalXTTCP buf).Option ≠ 0 ∨
          (binaryUnmarshalXTTCP buf).FlagMask ≠ 0 ∨
          (binaryUnmarshalXTTCP buf).FlagCompare ≠ 0 ∨
          (binaryUnmarshalXTTCP buf).InverseFlags ≠ 0 then
        .error .flagsError
      else if filter.Protocol ≠ TCPProtocolNumber then
        .error .protocolError
      else
        .ok { sourcePortStart := (binaryUnmarshalXTTCP buf).SourcePortStart
              sourcePortEnd := (binaryUnmarshalXTTCP buf).SourcePortEnd
              destinationPortStart := (binaryUnmarshalXTTCP buf).DestinationPortStart
              destinationPortEnd := (binaryUnmarshalXTTCP buf).DestinationPortEnd } := by
  unfold tcpUnmarshal
  rw [binaryUnmarshalXTTCP_take]

/-- Decoding the encoding of an `XTTCP`, with arbitrary trailing bytes,
recovers every field reduced to its wire width. -/
theorem binaryUnmarshal_marshal (x : XTTCP) (rest : List Nat) :
    binaryUnmarshalXTTCP (binaryMarshalXTTCP x ++ rest) =
      { SourcePortStart := x.SourcePortStart % 65536
        SourcePortEnd := x.SourcePortEnd % 65536
        DestinationPortStart := x.DestinationPortStart % 65536
        DestinationPortEnd := x.DestinationPortEnd % 65536
        Option := x.Option % 256
        FlagMask := x.FlagMask % 256
        FlagCompare := x.FlagCompare % 256
        InverseFlags := x.InverseFlags % 256 } := by
  obtain ⟨a, b, c, d, o, fm, fc, iv⟩ := x
  unfold binaryMarshalXTTCP u16LE binaryUnmarshalXTTCP readU16LE
  simp [XTTCP.mk.injEq]
  omega

/-- C6: for every buffer of at least the wire match block's size and
every header filter, `unmarshal` returns an error whenever any one of
the decoded option, flag-mask, flag-compare or inverse-flags fields is
non-zero, so no matcher instance is produced for any nonzero
combination of those fields. -/
theorem unmarshal_rejects_nonzero_flags (buf : List Nat)
    (filter : IPHeaderFilter) (hlen : SizeOfXTTCP ≤ buf.length)
    (hflag : (binaryUnmarshalXTTCP buf).Option ≠ 0 ∨
      (binaryUnmarshalXTTCP buf).FlagMask ≠ 0 ∨
      (binaryUnmarshalXTTCP buf).FlagCompare ≠ 0 ∨
      (binaryUnmarshalXTTCP buf).InverseFlags ≠ 0) :
    tcpUnmarshal buf filter = .error .flagsError := by
  rw [tcpUnmarshal_eq, if_neg (by omega), if_pos hflag]

/-- C6 witness: a 12-byte buffer whose flag-mask byte is non-zero is
rejected with the flags error. -/
theorem unmarshal_rejects_nonzero_flags_witness :
    tcpUnmarshal [0, 0, 0, 0, 0, 0, 0, 0, 0, 2, 0, 0] ⟨6⟩ =
      .error .flagsError :=
  unmarshal_rejects_nonzero_flags [0, 0, 0, 0, 0, 0, 0, 0, 0, 2, 0, 0] ⟨6⟩
    (by decide) (by decide)

/-- C7: `unmarshal` fails with the size error on every buffer strictly
shorter than the wire match block's logical size; on buffers of at
least that size the result depends only on the logical-size prefix,
and with zero flag fields and a matching filter protocol it succeeds
with the four decoded port bounds. -/
theorem unmarshal_size_prefix_dependence (filter : IPHeaderFilter)
    (buf buf2 : List Nat) :
    (buf.length < SizeOfXTTCP → tcpUnmarshal buf filter = .error .sizeError) ∧
    (SizeOfXTTCP ≤ buf.length → SizeOfXTTCP ≤ buf2.length →
      buf.take SizeOfXTTCP = buf2.take SizeOfXTTCP →
      tcpUnmarshal buf filter = tcpUnmarshal buf2 filter) ∧
    (SizeOfXTTCP ≤ buf.length →
      (binaryUnmarshalXTTCP buf).Option = 0 →
      (binaryUnmarshalXTTCP buf).FlagMask = 0 →
      (binaryUnmarshalXTTCP buf).FlagCompare = 0 →
      (binaryUnmarshalXTTCP buf).InverseFlags = 0 →
      filter.Protocol = TCPProtocolNumber →
      tcpUnmarshal buf filter =
        .ok { sourcePortStart := (binaryUnmarshalXTTCP buf).SourcePortStart
              sourcePortEnd := (binaryUnmarshalXTTCP buf).SourcePortEnd
              destinationPortStart :=
                (binaryUnmarshalXTTCP buf).DestinationPortStart
              destinationPortEnd :=
                (binaryUnmarshalXTTCP buf).DestinationPortEnd }) := by
  refine ⟨fun hshort => ?_, fun h1 h2 htake => ?_, fun h1 hf1 hf2 hf3 hf4 hp => ?_⟩
  · rw [tcpUnmarshal_eq, if_pos hshort]
  · unfold tcpUnmarshal
    rw [htake, if_neg (show ¬(buf.length < SizeOfXTTCP) by omega),
      if_neg (show ¬(buf2.length < SizeOfXTTCP) by omega)]
  · rw [tcpUnmarshal_eq, if_neg (by omega),
      if_neg (by simp [hf1, hf2, hf3, hf4]), if_neg (by simp [hp])]

/-- C7 witness: a 13-byte buffer with one trailing byte decodes exactly
as its 12-byte prefix does, and an 11-byte buffer gets the size error. -/
theorem unmarshal_size_prefix_dependence_witness :
    tcpUnmarshal [0, 0, 0, 0, 0, 0, 0, 0, 0, 0, 0] ⟨6⟩ =
      .error .sizeError ∧
    tcpUnmarshal [16, 0, 32, 0, 80, 0, 80, 0, 0, 0, 0, 0, 99] ⟨6⟩ =
      tcpUnmarshal [16, 0, 32, 0, 80, 0, 80, 0, 0, 0, 0, 0] ⟨6⟩ ∧
    tcpUnmarshal [16, 0, 32, 0, 80, 0, 80, 0, 0, 0, 0, 0, 99] ⟨6⟩ =
      .ok ⟨16, 32, 80, 80⟩ := by
  refine ⟨?_, ?_, ?_⟩
  · exact (unmarshal_size_prefix_dependence ⟨6⟩ [0, 0, 0, 0, 0, 0, 0, 0, 0, 0, 0]
      []).1 (by decide)
  · exact (unmarshal_size_prefix_dependence ⟨6⟩
      [16, 0, 32, 0, 80, 0, 80, 0, 0, 0, 0, 0, 99]
      [16, 0, 32, 0, 80, 0, 80, 0, 0, 0, 0, 0]).2.1
      (by decide) (by decide) (by decide)
  · have h := (unmarshal_size_prefix_dependence ⟨6⟩
      [16, 0, 32, 0, 80, 0, 80, 0, 0, 0, 0, 0, 99] []).2.2
      (by decide) (by decide) (by decide) (by decide) (by decide) (by decide)
    rw [h]
    simp [binaryUnmarshalXTTCP, readU16LE]

/-- C8: for a sufficiently sized buffer with zero flag fields,
`unmarshal` returns the protocol-mismatch error exactly when the
enclosing filter's protocol differs from the TCP protocol number, and
on success builds the instance holding exactly the four decoded port
bounds. -/
theorem unmarshal_protocol_check (buf : List Nat) (filter : IPHeaderFilter)
    (hlen : SizeOfXTTCP ≤ buf.length)
    (hf1 : (binaryUnmarshalXTTCP buf).Option = 0)
    (hf2 : (binaryUnmarshalXTTCP buf).FlagMask = 0)
    (hf3 : (binaryUnmarshalXTTCP buf).FlagCompare = 0)
    (hf4 : (binaryUnmarshalXTTCP buf).InverseFlags = 0) :
    (tcpUnmarshal buf filter = .error .protocolError ↔
      filter.Protocol ≠ TCPProtocolNumber) ∧
    (filter.Protocol = TCPProtocolNumber →
      tcpUnmarshal buf filter =
        .ok { sourcePortStart := (binaryUnmarshalXTTCP buf).SourcePortStart
              sourcePortEnd := (binaryUnmarshalXTTCP buf).SourcePortEnd
              destinationPortStart :=
                (binaryUnmarshalXTTCP buf).DestinationPortStart
              destinationPortEnd :=
                (binaryUnmarshalXTTCP buf).DestinationPortEnd }) := by
  rw [tcpUnmarshal_eq, if_neg (by omega), if_neg (by simp [hf1, hf2, hf3, hf4])]
  by_cases hp : filter.Protocol ≠ TCPProtocolNumber
  · rw [if_pos hp]
    exact ⟨⟨fun _ => hp, fun _ => rfl⟩, fun hpp => absurd hpp hp⟩
  · rw [if_neg hp]
    exact ⟨⟨fun hcontra => Except.noConfusion hcontra,
      fun hpp => absurd hpp hp⟩, fun _ => rfl⟩

/-- C8 witness: with zero flags, a filter with protocol 17 is rejected
with the protocol-mismatch error and a filter with protocol 6 yields
the instance with the decoded bounds. -/
theorem unmarshal_protocol_check_witness :
    tcpUnmarshal [16, 0, 32, 0, 80, 0, 80, 0, 0, 0, 0, 0] ⟨17⟩ =
      .error .protocolError ∧
    tcpUnmarshal [16, 0, 32, 0, 80, 0, 80, 0, 0, 0, 0, 0] ⟨6⟩ =
      .ok ⟨16, 32, 80, 80⟩ := by
  constructor
  · exact (unmarshal_protocol_check [16, 0, 32, 0, 80, 0, 80, 0, 0, 0, 0, 0]
      ⟨17⟩ (by decide) (by decide) (by decide) (by decide) (by decide)).1.mpr
      (by decide)
  · have h := (unmarshal_protocol_check [16, 0, 32, 0, 80, 0, 80, 0, 0, 0, 0, 0]
      ⟨6⟩ (by decide) (by decide) (by decide) (by decide) (by decide)).2 rfl
    rw [h]
    simp [binaryUnmarshalXTTCP, readU16LE]

/-- C2: for every valid matcher instance (all four port bounds 16-bit
values) and a header filter whose protocol is the TCP protocol number,
`unmarshal` applied to the match-block bytes produced by `marshal`
(the bytes following the generic match-header) returns, with no error,
an instance whose four port bounds are field-for-field equal to the
original's. -/
theorem tcpMarshal_unmarshal_roundtrip (m : TCPMatcher)
    (filter : IPHeaderFilter)
    (h1 : m.sourcePortStart < 65536) (h2 : m.sourcePortEnd < 65536)
    (h3 : m.destinationPortStart < 65536) (h4 : m.destinationPortEnd < 65536)
    (hf : filter.Protocol = TCPProtocolNumber) :
    tcpUnmarshal (matchDataOf (tcpMarshal m)) filter = .ok m := by
  obtain ⟨a, b, c, d⟩ := m
  have ha : a < 65536 := h1
  have hb : b < 65536 := h2
  have hc : c < 65536 := h3
  have hd : d < 65536 := h4
  have hdata : matchDataOf (tcpMarshal ⟨a, b, c, d⟩) =
      binaryMarshalXTTCP ⟨a, b, c, d, 0, 0, 0, 0⟩ ++ [0, 0, 0, 0] := by
    simp [matchDataOf, tcpMarshal, marshalEntryMatch, binaryMarshalXTTCP,
      u16LE, alignUp, SizeOfXTEntryMatch, matcherNameTCPBytes, List.replicate]
  rw [hdata, tcpUnmarshal_eq, binaryUnmarshal_marshal]
  simp [SizeOfXTTCP, binaryMarshalXTTCP, u16LE, hf, Nat.mod_eq_of_lt ha,
    Nat.mod_eq_of_lt hb, Nat.mod_eq_of_lt hc, Nat.mod_eq_of_lt hd]

/-- C2 witness: the concrete instance with source range [1000, 2000] and
destination range [80, 80] survives the marshal then unmarshal round
trip unchanged. -/
theorem tcpMarshal_unmarshal_roundtrip_witness :
    tcpUnmarshal (matchDataOf (tcpMarshal ⟨1000, 2000, 80, 80⟩)) ⟨6⟩ =
      .ok ⟨1000, 2000, 80, 80⟩ :=
  tcpMarshal_unmarshal_roundtrip ⟨1000, 2000, 80, 80⟩ ⟨6⟩ (by decide)
    (by decide) (by decide) (by decide) rfl

end Netfilter
